import Mathlib

/-!
Shallow embedding of the leaddb-backend discovery-and-enrichment pipeline
(src/services/email_generator.py, src/services/web_scraper.py,
src/services/lead_generation.py) and proofs about it.

Network effects (DNS MX resolution, SMTP probes, HTTP fetches, random
choices) are modelled as explicit oracle parameters; the in-memory
per-domain pattern cache (EmailGenerator.domain_patterns) is modelled as
explicit state passed in and out.
-/

set_option linter.unusedVariables false

/-! ### Generic string helpers mirroring Python primitives -/

/-- Model of Python substring containment for a prospective leading segment:
`leadsWith n h` is true when the list `h` starts with `n`. -/
def leadsWith : List Char → List Char → Bool
  | [], _ => true
  | _ :: _, [] => false
  | a :: as, b :: bs => a == b && leadsWith as bs

/-- Model of Python `needle in hay` (substring test) on char lists. -/
def hasSubList (n : List Char) : List Char → Bool
  | [] => n.isEmpty
  | c :: t => leadsWith n (c :: t) || hasSubList n t

/-- Model of Python `needle in hay` on strings. -/
def strContains (hay needle : String) : Bool :=
  hasSubList needle.toList hay.toList

/-- Model of Python regex `\d{3,}` search: three or more consecutive digits. -/
def hasDigitRun3 : List Char → Bool
  | a :: b :: c :: rest => (a.isDigit && b.isDigit && c.isDigit) || hasDigitRun3 (b :: c :: rest)
  | _ => false

/-- Accumulator loop behind `strSplit` (Python `str.split` with a one-char
separator): `acc` holds the current segment reversed. -/
def splitOnCharAux (sep : Char) : List Char → List Char → List (List Char)
  | [], acc => [acc.reverse]
  | c :: cs, acc =>
    if c == sep then acc.reverse :: splitOnCharAux sep cs []
    else splitOnCharAux sep cs (c :: acc)

/-- Model of Python `s.split(sep)` for a single-character separator. -/
def strSplit (s : String) (sep : Char) : List String :=
  (splitOnCharAux sep s.toList []).map String.mk

/-- Model of Python `s.lower()` (ASCII). -/
def strToLower (s : String) : String :=
  String.mk (s.toList.map Char.toLower)

/-- Model of Python `sep.join(parts)` for a single-character separator. -/
def joinWithChar (sep : Char) : List (List Char) → List Char
  | [] => []
  | [x] => x
  | x :: xs => x ++ sep :: joinWithChar sep xs

/-! ### email_generator.py: cleaning and syntax validation -/

/-- `EmailGenerator._clean_name`: strip, remove all chars outside `[a-zA-Z]`,
lower-case.  (Stripping is subsumed by the filter.) -/
def clean_name (name : String) : String :=
  String.mk ((name.toList.filter Char.isAlpha).map Char.toLower)

/-- `EmailGenerator._clean_domain`: drop a leading `http://`/`https://`, a
leading `www.`, anything from the first `/` on, then lower-case. -/
def clean_domain (domain : String) : String :=
  if domain = "" then ""
  else
    let l0 := domain.toList
    let l1 := if leadsWith "https://".toList l0 then l0.drop 8
              else if leadsWith "http://".toList l0 then l0.drop 7
              else l0
    let l2 := if leadsWith "www.".toList l1 then l1.drop 4 else l1
    String.mk ((l2.takeWhile (fun c => !(c == '/'))).map Char.toLower)

/-- Character class `[a-zA-Z0-9._%+-]` of the local part in
`EmailGenerator._is_valid_email_format`. -/
def isLocalChar (c : Char) : Bool :=
  c.isAlpha || c.isDigit || c == '.' || c == '_' || c == '%' || c == '+' || c == '-'

/-- Character class `[a-zA-Z0-9.-]` of the domain body in the same regex. -/
def isDomainChar (c : Char) : Bool :=
  c.isAlpha || c.isDigit || c == '.' || c == '-'

/-- The domain side `[a-zA-Z0-9.-]+\.[a-zA-Z]{2,}$` of the regex in
`EmailGenerator._is_valid_email_format`: a match exists iff the part after
the last dot is 2+ letters and the (necessarily non-empty) part before it
consists of domain characters. -/
def emailDomainOk (d : String) : Bool :=
  let parts := splitOnCharAux '.' d.toList []
  let tld := (parts.getLast?).getD []
  d.toList.all isDomainChar && 2 ≤ parts.length && 2 ≤ tld.length
    && tld.all Char.isAlpha && tld.length + 2 ≤ d.toList.length

/-- `EmailGenerator._is_valid_email_format`: model of
`re.match(r'^[a-zA-Z0-9._%+-]+@[a-zA-Z0-9.-]+\.[a-zA-Z]{2,}$', email)`. -/
def is_valid_email_format (email : String) : Bool :=
  match strSplit email '@' with
  | [l, d] => l ≠ "" && l.toList.all isLocalChar && emailDomainOk d
  | _ => false

/-! ### email_generator.py: patterns and synthesis -/

/-- The closed set of address templates appearing in
`EmailGenerator.common_patterns` / `find_company_email_pattern`. -/
inductive EmailPattern where
  | firstDotLast
  | firstLast
  | firstOnly
  | firstDotLastIni
  | firstIniDotLast
  | firstIniLast
  | firstLastIni
  | lastDotFirst
  | lastFirst
  | lastOnly
  | firstIniLastIni
deriving DecidableEq, BEq, Repr

/-- Instantiation of a template, as in `pattern.format(...)` inside
`EmailGenerator._apply_pattern` (initials are the first character). -/
def renderPattern (p : EmailPattern) (first last domain : String) : String :=
  let fi := String.mk (first.toList.take 1)
  let li := String.mk (last.toList.take 1)
  match p with
  | .firstDotLast => first ++ "." ++ last ++ "@" ++ domain
  | .firstLast => first ++ last ++ "@" ++ domain
  | .firstOnly => first ++ "@" ++ domain
  | .firstDotLastIni => first ++ "." ++ li ++ "@" ++ domain
  | .firstIniDotLast => fi ++ "." ++ last ++ "@" ++ domain
  | .firstIniLast => fi ++ last ++ "@" ++ domain
  | .firstLastIni => first ++ li ++ "@" ++ domain
  | .lastDotFirst => last ++ "." ++ first ++ "@" ++ domain
  | .lastFirst => last ++ first ++ "@" ++ domain
  | .lastOnly => last ++ "@" ++ domain
  | .firstIniLastIni => fi ++ li ++ "@" ++ domain

/-- `EmailGenerator.common_patterns`, in source order. -/
def commonPatternList : List EmailPattern :=
  [.firstDotLast, .firstLast, .firstOnly, .firstDotLastIni, .firstIniDotLast,
   .firstIniLast, .firstLastIni, .lastDotFirst, .lastFirst, .lastOnly,
   .firstIniLastIni]

/-- `EmailGenerator._apply_pattern`: instantiate and keep only when the
result passes the syntax validation, else the empty string. -/
def apply_pattern (p : EmailPattern) (first last domain : String) : String :=
  let e := renderPattern p first last domain
  if is_valid_email_format e then e else ""

/-- The mutable `EmailGenerator.domain_patterns` cache: domain keyed map.
Assignment is modelled by shadowing cons; lookup finds the newest entry. -/
abbrev GenState := List (String × EmailPattern)

/-- `self.domain_patterns.get(domain)`. -/
def lookupPattern (st : GenState) (d : String) : Option EmailPattern :=
  (List.find? (fun kv => kv.1 == d) st).map (fun kv => kv.2)

/-- `self.domain_patterns[domain] = p`. -/
def insertPattern (st : GenState) (d : String) (p : EmailPattern) : GenState :=
  (d, p) :: st

/-- The accumulation loop over `common_patterns` inside
`generate_email_patterns`: append each instantiation that is non-empty and
not already present. -/
def addPatterns (first last domain : String) : List EmailPattern → List String → List String
  | [], acc => acc
  | p :: ps, acc =>
    let e := apply_pattern p first last domain
    addPatterns first last domain ps
      (if e ≠ "" && !(acc.contains e) then acc ++ [e] else acc)

/-- `EmailGenerator.generate_email_patterns`. -/
def generate_email_patterns (st : GenState) (first_name last_name domain0 : String) :
    List String :=
  if first_name = "" || last_name = "" || domain0 = "" then []
  else
    let first := clean_name first_name
    let last := clean_name last_name
    let domain := clean_domain domain0
    if first = "" || last = "" || domain = "" then []
    else
      let base := match lookupPattern st domain with
        | some p =>
          let e := apply_pattern p first last domain
          if e ≠ "" then [e] else []
        | none => []
      addPatterns first last domain commonPatternList base

/-! ### email_generator.py: verification -/

/-- Outcome of `EmailGenerator._check_smtp_basic`, a dict of two booleans. -/
structure SmtpRes where
  deliverable : Bool
  unknown : Bool
deriving DecidableEq, Repr

/-- Return value of `EmailGenerator.verify_single_email`. -/
structure VerifyRes where
  is_valid : Bool
  confidence : Int
  method : String
deriving DecidableEq, Repr

/-- `email.split('@')[1]` (the code only evaluates this after the syntax
check, which forces exactly one `@`). -/
def emailDomain (email : String) : String :=
  (strSplit email '@').getD 1 ""

/-- `EmailGenerator._analyze_email_pattern`: heuristic local-part score,
clamped between 0 and 30. -/
def analyze_email_pattern (email : String) : Int :=
  let lp := (strSplit email '@').getD 0 ""
  let s : Int :=
    (if lp.toList.contains '.' then 15 else 0)
    + (if 4 ≤ lp.toList.length then 10 else 0)
    + (if hasDigitRun3 lp.toList then -20 else 0)
    + (if lp = "info" || lp = "contact" || lp = "admin" || lp = "support" then 5 else 0)
  max 0 (min s 30)

/-- `EmailGenerator.verify_single_email`, with DNS MX resolution and the
SMTP probe as oracles. -/
def verify_single_email (mx : String → Bool) (smtp : String → SmtpRes)
    (email : String) : VerifyRes :=
  if is_valid_email_format email = false then
    { is_valid := false, confidence := 0, method := "format_check" }
  else if mx (emailDomain email) = false then
    { is_valid := false, confidence := 10, method := "mx_record" }
  else
    let s := smtp email
    let ps := analyze_email_pattern email
    let conf : Int := 30 + (if s.deliverable then 40 else if s.unknown then 20 else 0) + ps
    { is_valid := decide (50 ≤ conf), confidence := min conf 95, method := "combined" }

/-- One verified candidate as produced by
`EmailGenerator.verify_email_addresses`. -/
structure EmailCandidate where
  email : String := ""
  is_valid : Bool := false
  confidence : Int := 0
  method : String := ""
deriving DecidableEq, Repr

/-- `EmailGenerator.verify_email_addresses` (the sleep between iterations
has no observable effect on the result). -/
def verify_email_addresses (mx : String → Bool) (smtp : String → SmtpRes)
    (emails : List String) : List EmailCandidate :=
  emails.map (fun em =>
    let v := verify_single_email mx smtp em
    { email := em, is_valid := v.is_valid, confidence := v.confidence, method := v.method })

/-- Stable insertion for a descending sort on `confidence`: an element is
placed before the first entry whose confidence does not exceed it, matching
the stable `list.sort(key=..., reverse=True)` of Python. -/
def insertByConf (x : EmailCandidate) : List EmailCandidate → List EmailCandidate
  | [] => [x]
  | y :: ys =>
    if y.confidence ≤ x.confidence then x :: y :: ys
    else y :: insertByConf x ys

/-- Stable sort by confidence, descending, as in
`verified_emails.sort(key=lambda x: x['confidence'], reverse=True)`. -/
def sortByConfDesc : List EmailCandidate → List EmailCandidate
  | [] => []
  | x :: xs => insertByConf x (sortByConfDesc xs)

/-- `EmailGenerator.generate_and_verify_emails`. -/
def generate_and_verify_emails (st : GenState) (mx : String → Bool)
    (smtp : String → SmtpRes) (first_name last_name domain : String)
    (maxAttempts : Nat) : List EmailCandidate :=
  let possible := generate_email_patterns st first_name last_name domain
  if possible = [] then []
  else
    let toCheck := possible.take maxAttempts
    let verified := verify_email_addresses mx smtp toCheck
    let sorted := sortByConfDesc verified
    sorted.filter (fun e => decide (50 ≤ e.confidence))

/-! ### email_generator.py: pattern inference and bulk mode -/

/-- The per-email bucketing step of
`EmailGenerator.find_company_email_pattern`. -/
def patternKeyOf (email : String) : Option EmailPattern :=
  if email = "" || !(email.toList.contains '@') then none
  else
    let lp := ((strSplit email '@').getD 0 "").toList
    let parts := splitOnCharAux '.' lp []
    if lp.contains '.' && parts.length == 2 then
      let p0 := parts.getD 0 []
      let p1 := parts.getD 1 []
      if 1 < p0.length && 1 < p1.length then some .firstDotLast
      else if p0.length == 1 then some .firstIniDotLast
      else if p1.length == 1 then some .firstDotLastIni
      else none
    else if 3 < lp.length && !(lp.contains '.') then some .firstLast
    else none

/-- The `patterns` counting dict of `find_company_email_pattern`: insertion
ordered association list with in-place increments. -/
def bumpCount (ps : List (EmailPattern × Nat)) (p : EmailPattern) :
    List (EmailPattern × Nat) :=
  if ps.any (fun q => q.1 == p) then
    ps.map (fun q => if q.1 == p then (q.1, q.2 + 1) else q)
  else ps ++ [(p, 1)]

/-- `max(patterns, key=patterns.get)`: the first key attaining the maximal
count, in insertion order. -/
def argmaxCount : List (EmailPattern × Nat) → Option EmailPattern
  | [] => none
  | q :: qs => some ((qs.foldl (fun best r => if best.2 < r.2 then r else best) q).1)

/-- `EmailGenerator.find_company_email_pattern`: returns the inferred
pattern (if any) and the updated `domain_patterns` cache. -/
def find_company_email_pattern (st : GenState) (knownEmails : List String)
    (domain : String) : Option EmailPattern × GenState :=
  if knownEmails = [] then (none, st)
  else
    let ps := knownEmails.foldl (fun acc e =>
      match patternKeyOf e with
      | some p => bumpCount acc p
      | none => acc) []
    match argmaxCount ps with
    | some most => (some most, insertPattern st domain most)
    | none => (none, st)

/-- Contact record dictionary as used across the services; string fields
default to the empty string (Python's `.get(key, '')`), numeric fields to 0. -/
structure Contact where
  name : String := ""
  first_name : String := ""
  last_name : String := ""
  email : String := ""
  phone : String := ""
  linkedin_url : String := ""
  job_title : String := ""
  department : String := ""
  seniority_level : String := ""
  company_name : String := ""
  company_domain : String := ""
  company_industry : String := ""
  location_country : String := ""
  location_state : String := ""
  location_city : String := ""
  source : String := ""
  lead_score : Int := 0
  email_confidence : Int := 0
  generated_emails : List EmailCandidate := []
deriving DecidableEq, Repr

/-- The per-contact body of the loop in
`EmailGenerator.bulk_email_generation`. -/
def bulkContact (st : GenState) (mx : String → Bool) (smtp : String → SmtpRes)
    (domain : String) (c : Contact) : Contact :=
  if c.email ≠ "" then
    { c with generated_emails := [], email_confidence := 100 }
  else
    let gen := generate_and_verify_emails st mx smtp c.first_name c.last_name domain 3
    { c with
      email := ((gen.head?.map (fun g => g.email)).getD ""),
      generated_emails := gen,
      email_confidence := ((gen.head?.map (fun g => g.confidence)).getD 0) }

/-- `EmailGenerator.bulk_email_generation`: first infers a domain pattern
from contacts that already carry an email, then processes each contact in
order. Returns the results and the updated pattern cache. -/
def bulk_email_generation (st : GenState) (contacts : List Contact)
    (domain : String) (mx : String → Bool) (smtp : String → SmtpRes) :
    List Contact × GenState :=
  let known := contacts.filterMap (fun c => if c.email ≠ "" then some c.email else none)
  let st2 := if known ≠ [] then (find_company_email_pattern st known domain).2 else st
  (contacts.map (bulkContact st2 mx smtp domain), st2)

/-- `EmailGenerator.extract_domain_from_website`. -/
def extract_domain_from_website (website : String) : String :=
  if website = "" then ""
  else
    let d := clean_domain website
    let parts := splitOnCharAux '.' d.toList []
    if 3 ≤ parts.length
        && (parts.getD 0 [] == "www".toList || parts.getD 0 [] == "mail".toList
            || parts.getD 0 [] == "email".toList) then
      String.mk (joinWithChar '.' (parts.drop 1))
    else d

/-! ### web_scraper.py -/

/-- Company record dictionary as produced by the scraping adapters and
enhanced by the lead-generation service; string fields default to empty. -/
structure Company where
  name : String := ""
  website : String := ""
  phone : String := ""
  address : String := ""
  description : String := ""
  source : String := ""
  domain : String := ""
  industry : String := ""
  location_country : String := ""
  location_state : String := ""
  location_city : String := ""
deriving DecidableEq, Repr

/-- `WebScraper.search_companies_by_industry`: each of the three source
adapters (Yellow Pages, Google business search, industry directories,
modelled as oracles) is queried for `limit / 3` results; the results are
concatenated and truncated to `limit`. -/
def search_companies_by_industry
    (searchYellowPages searchGoogleBusiness searchIndustryDirectories :
      String → String → Nat → List Company)
    (industry location : String) (limit : Nat) : List Company :=
  (searchYellowPages industry location (limit / 3)
    ++ searchGoogleBusiness industry location (limit / 3)
    ++ searchIndustryDirectories industry location (limit / 3)).take limit

/-- The fixed candidate page paths visited by
`WebScraper.find_company_contacts`. -/
def contactPagePaths : List String :=
  ["", "/about", "/team", "/contact", "/leadership", "/management", "/staff"]

/-- The duplicate-removal loop at the end of
`WebScraper.find_company_contacts`: keep a contact only when its email is
non-empty and not seen before. -/
def dedupByEmail : List Contact → List String → List Contact
  | [], _ => []
  | c :: cs, seen =>
    if c.email ≠ "" && !(seen.contains c.email) then
      c :: dedupByEmail cs (c.email :: seen)
    else dedupByEmail cs seen

/-- `WebScraper.find_company_contacts`, with per-page fetching and
extraction (`_extract_contacts_from_page` applied to the fetched soup)
modelled by the oracle `extract` taking the website and the relative page
path. -/
def find_company_contacts (extract : String → String → List Contact)
    (website : String) : List Contact :=
  if website = "" then []
  else
    let contacts := contactPagePaths.foldl (fun acc page => acc ++ extract website page) []
    (dedupByEmail contacts []).take 10

/-! ### lead_generation.py -/

/-- `LeadGenerationService._get_department_from_title`. -/
def get_department_from_title (t : String) : String :=
  let l := strToLower t
  if strContains l "ceo" || strContains l "president" || strContains l "founder" then
    "Executive"
  else if strContains l "cto" || strContains l "engineering" || strContains l "technical"
      || strContains l "developer" then "Engineering"
  else if strContains l "sales" || strContains l "business development" then "Sales"
  else if strContains l "marketing" || strContains l "growth" || strContains l "brand" then
    "Marketing"
  else if strContains l "finance" || strContains l "accounting" || strContains l "cfo" then
    "Finance"
  else "Other"

/-- `LeadGenerationService._get_seniority_from_title`. -/
def get_seniority_from_title (t : String) : String :=
  let l := strToLower t
  if strContains l "ceo" || strContains l "cto" || strContains l "cfo"
      || strContains l "coo" || strContains l "chief" then "C-Level"
  else if strContains l "vp" || strContains l "vice president" then "VP"
  else if strContains l "director" || strContains l "head" then "Director"
  else if strContains l "manager" || strContains l "lead" then "Manager"
  else "Individual Contributor"

/-- The seniority tier addend inside
`LeadGenerationService._calculate_lead_score` (substring checks against the
stored seniority level, in source order). -/
def seniorityBonus (s : String) : Int :=
  if strContains s "C-Level" then 25
  else if strContains s "VP" then 20
  else if strContains s "Director" then 15
  else if strContains s "Manager" then 10
  else 0

/-- `LeadGenerationService._calculate_lead_score`. -/
def calculate_lead_score (c : Contact) : Int :=
  let jt := strToLower c.job_title
  let score : Int :=
    (if c.email ≠ "" then 30 else 0)
    + (if c.phone ≠ "" then 20 else 0)
    + (if c.linkedin_url ≠ "" then 15 else 0)
    + seniorityBonus c.seniority_level
    + (if strContains jt "ceo" || strContains jt "founder" || strContains jt "president"
       then 10 else 0)
    + (if 70 < c.email_confidence then 10 else if 50 < c.email_confidence then 5 else 0)
  min score 100

/-- `LeadGenerationService._enhance_contact_data`: attach company fields,
split an unsplit display name at its first space, derive department and
seniority from the job title, then compute the lead score. -/
def enhance_contact_data (contact : Contact) (company : Company) : Contact :=
  let e1 := { contact with
    company_name := company.name,
    company_domain := company.domain,
    company_industry := company.industry,
    location_country := if company.location_country = "" then "United States"
                        else company.location_country,
    location_state := company.location_state,
    location_city := company.location_city }
  let e2 := if e1.name ≠ "" && e1.first_name = "" then
      let nm := e1.name.toList
      let fw := nm.takeWhile (fun ch => !(ch == ' '))
      { e1 with first_name := String.mk fw,
                last_name := String.mk (nm.drop (fw.length + 1)) }
    else e1
  let e3 := if e2.job_title ≠ "" then
      { e2 with department := get_department_from_title e2.job_title,
                seniority_level := get_seniority_from_title e2.job_title }
    else e2
  { e3 with lead_score := calculate_lead_score e3 }

/-- The fixed role/name corpus of
`LeadGenerationService._generate_likely_contacts`. -/
def commonRoles : List (String × List String) :=
  [("CEO", ["John", "Jane", "Michael", "Sarah", "David"]),
   ("CTO", ["Alex", "Chris", "Jordan", "Taylor", "Morgan"]),
   ("VP Sales", ["Robert", "Lisa", "Mark", "Jennifer", "Brian"]),
   ("VP Marketing", ["Emily", "Daniel", "Michelle", "Kevin", "Amanda"])]

/-- The fixed last-name pool of `_generate_likely_contacts`. -/
def likelyLastNames : List String :=
  ["Smith", "Johnson", "Williams", "Brown", "Jones", "Garcia", "Miller", "Davis"]

/-- `LeadGenerationService._generate_likely_contacts`: the first two roles
only; `random.choice` is modelled by the oracle `choice`.  (The `domain`
argument is unused, as in the source.) -/
def generate_likely_contacts (company : Company) (_domain : String)
    (choice : List String → String) : List Contact :=
  (commonRoles.take 2).map (fun role =>
    let fn := choice role.2
    let ln := choice likelyLastNames
    { first_name := fn, last_name := ln, name := fn ++ " " ++ ln,
      job_title := role.1, company_name := company.name,
      source := "Generated Pattern" })

/-- A company together with its enriched contact list, as assembled by
`LeadGenerationService._enrich_company_with_contacts`. -/
structure EnrichedCompany where
  company : Company
  contacts : List Contact := []
  contact_count : Nat := 0
deriving DecidableEq, Repr

/-- The contact list obtained from the web scraper and per-contact
enhancement inside `_enrich_company_with_contacts` (empty when the company
has no website; the scrape itself is the oracle `scrape`). -/
def extractedContacts (scrape : String → List Contact) (company : Company) :
    List Contact :=
  if company.website ≠ "" then
    (scrape company.website).map (fun c => enhance_contact_data c company)
  else []

/-- The effective domain inside `_enrich_company_with_contacts`: the
company's domain, derived from its website when absent. -/
def enrichDomain (company : Company) : String :=
  if company.domain = "" && company.website ≠ "" then
    extract_domain_from_website company.website
  else company.domain

/-- `LeadGenerationService._enrich_company_with_contacts`. -/
def enrich_company_with_contacts (scrape : String → List Contact)
    (choice : List String → String) (mx : String → Bool) (smtp : String → SmtpRes)
    (st : GenState) (company : Company) : EnrichedCompany :=
  let domain := enrichDomain company
  let contacts0 := extractedContacts scrape company
  let contacts1 := if contacts0 = [] && domain ≠ "" then
      generate_likely_contacts company domain choice
    else contacts0
  let contacts2 := if domain ≠ "" then
      (bulk_email_generation st contacts1 domain mx smtp).1
    else contacts1
  { company := { company with domain := domain },
    contacts := contacts2, contact_count := contacts2.length }

/-! ### Spec-side definitions and concrete inputs used by the theorems -/

/-- Modelled from the spec: the case/whitespace-insensitive normalized
company name that §4.1 uses as deduplication key (the source has no
deduplication step, so no source definition exists to embed). -/
def normalizedName (s : String) : String :=
  String.mk ((s.toList.filter (fun c => !c.isWhitespace)).map Char.toLower)

/-- Oracle: every domain resolves MX records. -/
def mxAll : String → Bool := fun _ => true

/-- Oracle: no domain resolves MX records. -/
def mxNone : String → Bool := fun _ => false

/-- Oracle: every SMTP probe classifies the mailbox as unknown
(`deliverable = false`, `unknown = true`), the fail-open default. -/
def smtpUnknown : String → SmtpRes := fun _ => { deliverable := false, unknown := true }

/-- Oracle: every SMTP probe rejects (`deliverable = false`,
`unknown = false`). -/
def smtpReject : String → SmtpRes := fun _ => { deliverable := false, unknown := false }

/-- Oracle: deterministic stand-in for `random.choice`, taking the first
pool element. -/
def choiceHead : List String → String := fun l => l.getD 0 ""

/-- Concrete adapter for the C5 counterexample: one Yellow-Pages style hit. -/
def cFiveAdapterA : String → String → Nat → List Company :=
  fun _ _ _ => [{ name := "Acme Corp", source := "Yellow Pages" }]

/-- Concrete adapter for the C5 counterexample: the same company found by
web search under different casing/spacing. -/
def cFiveAdapterB : String → String → Nat → List Company :=
  fun _ _ _ => [{ name := "ACME corp", source := "Google Search" }]

/-- Concrete adapter for the C5 counterexample: no directory hits. -/
def cFiveAdapterC : String → String → Nat → List Company :=
  fun _ _ _ => []

/-- Concrete extraction oracle for the C6 counterexample: the homepage
yields one name-only contact (no email), every other page nothing. -/
def cSixExtract : String → String → List Contact :=
  fun _ page => if page = "" then [{ name := "John Smith" }] else []

/-- Concrete extraction oracle for the C6 witness: the homepage yields the
same business address twice under two names. -/
def cSixWitnessExtract : String → String → List Contact :=
  fun _ page =>
    if page = "" then
      [{ name := "Ann Ames", email := "ann@x.co" },
       { name := "Ann B. Ames", email := "ann@x.co" }]
    else []

/-- The lead-score weight sum as the specification words it (spec section
on the Lead Scorer): +30 email present, +20 phone present, +15
professional-network profile present, seniority tier bonus
(C-level +25, VP +20, Director +15, Manager +10, else 0), +10 if the job
title contains an executive/founder keyword, and a synthesized-email
confidence bonus (+10 if over 70, else +5 if over 50). -/
def leadScoreSpecSum (c : Contact) : Int :=
  (if c.email ≠ "" then 30 else 0)
  + (if c.phone ≠ "" then 20 else 0)
  + (if c.linkedin_url ≠ "" then 15 else 0)
  + (if strContains c.seniority_level "C-Level" then 25
     else if strContains c.seniority_level "VP" then 20
     else if strContains c.seniority_level "Director" then 15
     else if strContains c.seniority_level "Manager" then 10
     else 0)
  + (if strContains (strToLower c.job_title) "ceo"
        || strContains (strToLower c.job_title) "founder"
        || strContains (strToLower c.job_title) "president" then 10 else 0)
  + (if 70 < c.email_confidence then 10
     else if 50 < c.email_confidence then 5 else 0)

/-- Concrete company for the C8 witness: a known domain but no website, so
contact extraction yields nothing. -/
def cEightCompany : Company :=
  { name := "Acme", website := "", domain := "acme.com" }

/-- Concrete contact for the C10 witness: no email, so bulk generation
synthesizes one. -/
def cTenContact : Contact :=
  { first_name := "Jane", last_name := "Doe" }

/-- The best candidate that `generate_and_verify_emails` produces for
(Jane, Doe, acme.com) under `mxAll`/`smtpUnknown`; used by the C1 witness. -/
def cOneTopCandidate : EmailCandidate :=
  { email := "jane.doe@acme.com", is_valid := true, confidence := 75,
    method := "combined" }

/-- Concrete input contact for the C9 counterexample: carries an email and
a non-empty `generated_emails` field from an earlier enrichment pass. -/
def cNineContact : Contact :=
  { first_name := "Jane", last_name := "Doe", email := "jane.doe@acme.com",
    generated_emails := [{ email := "j.doe@acme.com", is_valid := true,
                           confidence := 60, method := "combined" }] }

/-! ### Helper lemmas (shared) -/

theorem mem_insertByConf {x a : EmailCandidate} {l : List EmailCandidate} :
    a ∈ insertByConf x l ↔ a = x ∨ a ∈ l := by
  induction l with
  | nil => simp [insertByConf]
  | cons y ys ih =>
    simp only [insertByConf]
    split
    · simp [List.mem_cons]
    · simp only [List.mem_cons, ih]
      tauto

theorem pairwise_insertByConf {x : EmailCandidate} {l : List EmailCandidate}
    (h : l.Pairwise (fun a b => b.confidence ≤ a.confidence)) :
    (insertByConf x l).Pairwise (fun a b => b.confidence ≤ a.confidence) := by
  induction l with
  | nil => simp [insertByConf]
  | cons y ys ih =>
    rw [List.pairwise_cons] at h
    obtain ⟨hy, hys⟩ := h
    simp only [insertByConf]
    split
    · rename_i hle
      rw [List.pairwise_cons]
      refine ⟨?_, List.pairwise_cons.mpr ⟨hy, hys⟩⟩
      intro b hb
      rcases List.mem_cons.mp hb with hb | hb
      · rw [hb]; exact hle
      · exact (hy b hb).trans hle
    · rename_i hgt
      rw [List.pairwise_cons]
      refine ⟨?_, ih hys⟩
      intro b hb
      rcases mem_insertByConf.mp hb with hb | hb
      · rw [hb]; exact le_of_lt (lt_of_not_le hgt)
      · exact hy b hb

theorem pairwise_sortByConfDesc (l : List EmailCandidate) :
    (sortByConfDesc l).Pairwise (fun a b => b.confidence ≤ a.confidence) := by
  induction l with
  | nil => simp [sortByConfDesc]
  | cons x xs ih => exact pairwise_insertByConf ih

theorem mem_sortByConfDesc {a : EmailCandidate} {l : List EmailCandidate} :
    a ∈ sortByConfDesc l ↔ a ∈ l := by
  induction l with
  | nil => simp [sortByConfDesc]
  | cons x xs ih =>
    simp only [sortByConfDesc, mem_insertByConf, List.mem_cons, ih]

theorem apply_pattern_valid {p : EmailPattern} {f l d : String}
    (h : apply_pattern p f l d ≠ "") :
    is_valid_email_format (apply_pattern p f l d) = true := by
  simp only [apply_pattern] at h ⊢
  split
  · rename_i hv; exact hv
  · rename_i hnv
    simp at h
    exact absurd h.1 hnv

theorem addPatterns_all_valid (f l d : String) :
    ∀ (ps : List EmailPattern) (acc : List String),
      (∀ e ∈ acc, is_valid_email_format e = true) →
      ∀ e ∈ addPatterns f l d ps acc, is_valid_email_format e = true := by
  intro ps
  induction ps with
  | nil => intro acc hacc e he; exact hacc e he
  | cons p ps ih =>
    intro acc hacc e he
    simp only [addPatterns] at he
    refine ih _ ?_ e he
    intro e' he'
    split at he'
    · rename_i hcond
      rcases List.mem_append.mp he' with h | h
      · exact hacc e' h
      · have : e' = apply_pattern p f l d := by simpa using h
        rw [this]
        exact apply_pattern_valid (of_decide_eq_true (Bool.and_eq_true_iff.mp hcond).1)
    · exact hacc e' he'

theorem generate_email_patterns_valid (st : GenState) (f l d : String) :
    ∀ e ∈ generate_email_patterns st f l d, is_valid_email_format e = true := by
  intro e he
  simp only [generate_email_patterns] at he
  split at he
  · simp at he
  · split at he
    · simp at he
    · refine addPatterns_all_valid _ _ _ _ _ ?_ e he
      intro e' he'
      split at he'
      · rename_i p _
        split at he'
        · rename_i hne
          have : e' = apply_pattern p (clean_name f) (clean_name l) (clean_domain d) := by
            simpa using he'
          rw [this]
          exact apply_pattern_valid hne
        · simp at he'
      · simp at he'

theorem addPatterns_head (f l d : String) :
    ∀ (ps : List EmailPattern) (acc : List String),
      ∃ rest, addPatterns f l d ps acc = acc ++ rest := by
  intro ps
  induction ps with
  | nil => intro acc; exact ⟨[], by simp [addPatterns]⟩
  | cons p ps ih =>
    intro acc
    simp only [addPatterns]
    split
    · obtain ⟨rest, hr⟩ := ih (acc ++ [apply_pattern p f l d])
      exact ⟨[apply_pattern p f l d] ++ rest, by rw [hr, List.append_assoc]⟩
    · exact ih acc

/-! ### C1 -/

/-- Claim C1: for every pattern-cache state, network oracle and
(first, last, domain, maxAttempts), the list returned by
`generate_and_verify_emails` is sorted in non-increasing confidence order,
every element has confidence at least 50, and every element's email string
passes `_is_valid_email_format`. -/
theorem claim_generate_and_verify_sorted_valid (st : GenState) (mx : String → Bool)
    (smtp : String → SmtpRes) (first last domain : String) (maxAttempts : Nat) :
    ((generate_and_verify_emails st mx smtp first last domain maxAttempts).Pairwise
      (fun a b => b.confidence ≤ a.confidence))
    ∧ ∀ e ∈ generate_and_verify_emails st mx smtp first last domain maxAttempts,
        50 ≤ e.confidence ∧ is_valid_email_format e.email = true := by
  simp only [generate_and_verify_emails]
  split
  · simp
  · constructor
    · exact List.Pairwise.sublist (List.filter_sublist _) (pairwise_sortByConfDesc _)
    · intro e he
      rw [List.mem_filter] at he
      obtain ⟨hmem, hconf⟩ := he
      refine ⟨of_decide_eq_true hconf, ?_⟩
      rw [mem_sortByConfDesc] at hmem
      unfold verify_email_addresses at hmem
      rw [List.mem_map] at hmem
      obtain ⟨em, hem, hfe⟩ := hmem
      have hee : e.email = em := by rw [← hfe]
      rw [hee]
      exact generate_email_patterns_valid st first last domain em
        ((List.take_sublist _ _).subset hem)

/-- Witness for C1 at a concrete input: the top candidate for
(Jane, Doe, acme.com) has confidence at least 50 and valid syntax. -/
theorem claim_generate_and_verify_sorted_valid_witness :
    50 ≤ cOneTopCandidate.confidence
    ∧ is_valid_email_format cOneTopCandidate.email = true := by
  have h := (claim_generate_and_verify_sorted_valid [] mxAll smtpUnknown
    "Jane" "Doe" "acme.com" 5).2
  have hm : cOneTopCandidate
      ∈ generate_and_verify_emails [] mxAll smtpUnknown "Jane" "Doe" "acme.com" 5 := by
    decide
  simpa using h _ hm

/-! ### C2 -/

/-- Claim C2: for every email address whose domain has no resolvable MX
records, `verify_single_email` returns confidence at most 10 — exactly 10
when the syntax check passes and 0 when it fails — with `is_valid` false,
regardless of the SMTP probe and the pattern score. -/
theorem claim_no_mx_confidence_floor (mx : String → Bool) (smtp : String → SmtpRes)
    (email : String) (hmx : mx (emailDomain email) = false) :
    (verify_single_email mx smtp email).confidence ≤ 10
    ∧ (verify_single_email mx smtp email).is_valid = false
    ∧ (is_valid_email_format email = true →
        (verify_single_email mx smtp email).confidence = 10)
    ∧ (is_valid_email_format email = false →
        (verify_single_email mx smtp email).confidence = 0) := by
  cases hv : is_valid_email_format email with
  | false =>
    have he : verify_single_email mx smtp email
        = { is_valid := false, confidence := 0, method := "format_check" } := by
      unfold verify_single_email
      simp [hv]
    rw [he]
    exact ⟨by norm_num, rfl, fun h => absurd h (by simp [hv]), fun _ => rfl⟩
  | true =>
    have he : verify_single_email mx smtp email
        = { is_valid := false, confidence := 10, method := "mx_record" } := by
      unfold verify_single_email
      simp [hv, hmx]
    rw [he]
    exact ⟨by norm_num, rfl, fun _ => rfl, fun h => absurd h (by simp [hv])⟩

/-- Witness for C2 at a concrete input: under an oracle resolving no MX
records, a syntactically valid address gets confidence exactly 10 and is
reported invalid. -/
theorem claim_no_mx_confidence_floor_witness :
    (verify_single_email mxNone smtpUnknown "jane.doe@acme.com").confidence = 10
    ∧ (verify_single_email mxNone smtpUnknown "jane.doe@acme.com").is_valid = false := by
  have h := claim_no_mx_confidence_floor mxNone smtpUnknown "jane.doe@acme.com" rfl
  exact ⟨h.2.2.1 (by decide), h.2.1⟩

/-! ### C3 -/

/-- Claim C3: for every syntactically valid address whose domain has MX
records and whose deliverability probe comes back "unknown",
`verify_single_email` reports confidence `min (30 + 20 + patternScore) 95`
with the pattern score clamped to [0, 30], reports `is_valid` iff
`30 + 20 + patternScore ≥ 50`, and the confidence lies in [0, 95]. -/
theorem claim_unknown_probe_confidence_formula (mx : String → Bool)
    (smtp : String → SmtpRes) (email : String)
    (hfmt : is_valid_email_format email = true)
    (hmx : mx (emailDomain email) = true)
    (hsm : smtp email = { deliverable := false, unknown := true }) :
    (verify_single_email mx smtp email).confidence
      = min (30 + 20 + analyze_email_pattern email) 95
    ∧ ((verify_single_email mx smtp email).is_valid = true
        ↔ 50 ≤ 30 + 20 + analyze_email_pattern email)
    ∧ 0 ≤ analyze_email_pattern email ∧ analyze_email_pattern email ≤ 30
    ∧ 0 ≤ (verify_single_email mx smtp email).confidence
    ∧ (verify_single_email mx smtp email).confidence ≤ 95 := by
  have hps0 : 0 ≤ analyze_email_pattern email := by
    simp only [analyze_email_pattern]
    exact le_max_left _ _
  have hps30 : analyze_email_pattern email ≤ 30 := by
    simp only [analyze_email_pattern]
    exact max_le (by norm_num) (min_le_right _ _)
  have he : verify_single_email mx smtp email
      = { is_valid := decide (50 ≤ 30 + 20 + analyze_email_pattern email),
          confidence := min (30 + 20 + analyze_email_pattern email) 95,
          method := "combined" } := by
    unfold verify_single_email
    simp [hfmt, hmx, hsm]
  rw [he]
  refine ⟨rfl, by simp, hps0, hps30, ?_, min_le_right _ _⟩
  exact le_min (by omega) (by norm_num)

/-- Witness for C3 at a concrete input: (Jane, Doe, acme.com) under
all-MX/unknown-probe oracles satisfies the confidence formula and is
reported valid. -/
theorem claim_unknown_probe_confidence_formula_witness :
    (verify_single_email mxAll smtpUnknown "jane.doe@acme.com").confidence
      = min (30 + 20 + analyze_email_pattern "jane.doe@acme.com") 95
    ∧ (verify_single_email mxAll smtpUnknown "jane.doe@acme.com").is_valid = true := by
  have h := claim_unknown_probe_confidence_formula mxAll smtpUnknown
    "jane.doe@acme.com" (by decide) rfl rfl
  exact ⟨h.1, h.2.1.mpr (by decide)⟩

/-! ### C4 -/

theorem lookupPattern_insert (st : GenState) (d : String) (p : EmailPattern) :
    lookupPattern (insertPattern st d p) d = some p := by
  simp [lookupPattern, insertPattern, List.find?]

theorem find_pattern_result {st : GenState} {emails : List String} {D : String}
    {p : EmailPattern}
    (h : (find_company_email_pattern st emails D).1 = some p) :
    find_company_email_pattern st emails D = (some p, insertPattern st D p) := by
  simp only [find_company_email_pattern] at h ⊢
  split at h
  · simp at h
  · rename_i hne
    rw [if_neg hne]
    split at h
    · rename_i most heq
      simp at h
      rw [h]
    · simp at h

/-- Claim C4: once `find_company_email_pattern` has inferred a pattern `p`
for (already clean, non-empty) domain `D` from known addresses, the next
`generate_email_patterns` call for the same cleaned names and `D` places
the instantiation of `p` first in its candidate list, ahead of the fixed
template order (provided that instantiation is syntactically valid). -/
theorem claim_inferred_pattern_first (st : GenState) (emails : List String)
    (D first last : String) (p : EmailPattern)
    (hfind : (find_company_email_pattern st emails D).1 = some p)
    (hD : clean_domain D = D) (hDne : D ≠ "")
    (hf : clean_name first ≠ "") (hl : clean_name last ≠ "")
    (hvalid : is_valid_email_format
        (renderPattern p (clean_name first) (clean_name last) D) = true) :
    (generate_email_patterns (find_company_email_pattern st emails D).2 first last D).head?
      = some (renderPattern p (clean_name first) (clean_name last) D) := by
  have hst : (find_company_email_pattern st emails D).2 = insertPattern st D p := by
    rw [find_pattern_result hfind]
  rw [hst]
  have hfne : first ≠ "" := fun h => hf (by rw [h]; rfl)
  have hlne : last ≠ "" := fun h => hl (by rw [h]; rfl)
  have happ : apply_pattern p (clean_name first) (clean_name last) D
      = renderPattern p (clean_name first) (clean_name last) D := by
    simp only [apply_pattern]
    rw [if_pos hvalid]
  have hrne : renderPattern p (clean_name first) (clean_name last) D ≠ "" := by
    intro h0
    rw [h0] at hvalid
    exact absurd hvalid (by decide)
  simp only [generate_email_patterns, hD, lookupPattern_insert, happ]
  rw [if_neg (by simp [hfne, hlne, hDne]), if_neg (by simp [hf, hl, hDne]),
    if_pos hrne]
  obtain ⟨rest, hr⟩ := addPatterns_head (clean_name first) (clean_name last) D
    commonPatternList [renderPattern p (clean_name first) (clean_name last) D]
  rw [hr]
  simp

/-- Witness for C4 at a concrete input: after inferring first.last for
x.co from "ab.cd@x.co", generation for (Jane, Doe, x.co) starts with
jane.doe@x.co. -/
theorem claim_inferred_pattern_first_witness :
    (generate_email_patterns (find_company_email_pattern [] ["ab.cd@x.co"] "x.co").2
        "Jane" "Doe" "x.co").head?
      = some (renderPattern .firstDotLast (clean_name "Jane") (clean_name "Doe") "x.co") :=
  claim_inferred_pattern_first [] ["ab.cd@x.co"] "x.co" "Jane" "Doe" .firstDotLast
    (by decide) (by decide) (by decide) (by decide) (by decide) (by decide)

/-! ### C5 -/

/-- Counterexample to claim C5: `search_companies_by_industry` performs no
deduplication — two adapters returning the same company under different
casing/spacing both survive, so two returned companies share the
case/whitespace-insensitive normalized name. -/
theorem claim_aggregator_dedup_counterexample :
    (search_companies_by_industry cFiveAdapterA cFiveAdapterB cFiveAdapterC
        "technology" "" 10).map (fun c => normalizedName c.name)
      = ["acmecorp", "acmecorp"]
    ∧ (search_companies_by_industry cFiveAdapterA cFiveAdapterB cFiveAdapterC
        "technology" "" 10).length = 2 := by
  constructor <;> decide

/-- Claim C5 as amended: for every adapter triple and query, the discovery
operation (a total function, hence never raising) returns exactly the
concatenation of the three adapters' results truncated to `limit`, with no
deduplication step; its length never exceeds `limit`. -/
theorem claim_aggregator_concat_truncate
    (a1 a2 a3 : String → String → Nat → List Company)
    (industry location : String) (limit : Nat) :
    search_companies_by_industry a1 a2 a3 industry location limit
      = (a1 industry location (limit / 3) ++ a2 industry location (limit / 3)
          ++ a3 industry location (limit / 3)).take limit
    ∧ (search_companies_by_industry a1 a2 a3 industry location limit).length ≤ limit :=
  ⟨rfl, by simp only [search_companies_by_industry, List.length_take]; omega⟩

/-! ### C6 -/

theorem dedupByEmail_mem : ∀ (l : List Contact) (seen : List String) (a : Contact),
    a ∈ dedupByEmail l seen → a.email ≠ "" ∧ a ∈ l := by
  intro l
  induction l with
  | nil => intro seen a ha; simp [dedupByEmail] at ha
  | cons c cs ih =>
    intro seen a ha
    simp only [dedupByEmail] at ha
    split at ha
    · rename_i hcond
      rcases List.mem_cons.mp ha with h | h
      · subst h
        exact ⟨of_decide_eq_true (Bool.and_eq_true_iff.mp hcond).1,
          List.mem_cons_self _ _⟩
      · obtain ⟨h1, h2⟩ := ih _ a h
        exact ⟨h1, List.mem_cons_of_mem _ h2⟩
    · obtain ⟨h1, h2⟩ := ih _ a ha
      exact ⟨h1, List.mem_cons_of_mem _ h2⟩

theorem dedupByEmail_not_seen : ∀ (l : List Contact) (seen : List String) (a : Contact),
    a ∈ dedupByEmail l seen → seen.contains a.email = false := by
  intro l
  induction l with
  | nil => intro seen a ha; simp [dedupByEmail] at ha
  | cons c cs ih =>
    intro seen a ha
    simp only [dedupByEmail] at ha
    split at ha
    · rename_i hcond
      rcases List.mem_cons.mp ha with h | h
      · subst h
        simpa using (Bool.and_eq_true_iff.mp hcond).2
      · have h2 := ih _ a h
        simp only [List.contains_cons, Bool.or_eq_false_iff] at h2
        exact h2.2
    · exact ih _ a ha

theorem dedupByEmail_pairwise : ∀ (l : List Contact) (seen : List String),
    (dedupByEmail l seen).Pairwise (fun a b => a.email ≠ b.email) := by
  intro l
  induction l with
  | nil => intro seen; simp [dedupByEmail]
  | cons c cs ih =>
    intro seen
    simp only [dedupByEmail]
    split
    · rw [List.pairwise_cons]
      refine ⟨?_, ih _⟩
      intro b hb
      have hns := dedupByEmail_not_seen cs (c.email :: seen) b hb
      have hne : ¬(b.email = c.email) := by
        intro heq
        rw [heq] at hns
        simp at hns
      exact fun heq => hne heq.symm
    · exact ih _

/-- Counterexample to claim C6: the dedup loop in `find_company_contacts`
discards records lacking an email instead of keeping them as name-only
signals — a page yielding exactly one name-only record produces an empty
output. -/
theorem claim_contact_dedup_counterexample :
    find_company_contacts cSixExtract "https://x.com" = []
    ∧ contactPagePaths.foldl
        (fun acc page => acc ++ cSixExtract "https://x.com" page) []
      = [{ name := "John Smith" }] := by
  constructor <;> decide

/-- Claim C6 as amended: the Contact Extractor output is deduplicated by
email address, records lacking an email are dropped (not kept), and the
result is capped to at most 10 records, each drawn from the raw
per-page extraction. -/
theorem claim_contact_dedup_email_only (extract : String → String → List Contact)
    (website : String) :
    (find_company_contacts extract website).length ≤ 10
    ∧ (find_company_contacts extract website).Pairwise (fun a b => a.email ≠ b.email)
    ∧ ∀ c ∈ find_company_contacts extract website,
        c.email ≠ ""
        ∧ c ∈ contactPagePaths.foldl (fun acc page => acc ++ extract website page) [] := by
  unfold find_company_contacts
  split
  · simp
  · refine ⟨?_, ?_, ?_⟩
    · simp only [List.length_take]; omega
    · exact List.Pairwise.sublist (List.take_sublist _ _) (dedupByEmail_pairwise _ _)
    · intro c hc
      exact dedupByEmail_mem _ _ _ ((List.take_sublist _ _).subset hc)

/-- Witness for C6 (amended) at a concrete input: two same-email records
collapse to one, which carries a non-empty email. -/
theorem claim_contact_dedup_email_only_witness :
    (find_company_contacts cSixWitnessExtract "https://x.com").length ≤ 10
    ∧ ({ name := "Ann Ames", email := "ann@x.co" } : Contact).email ≠ "" := by
  have h := claim_contact_dedup_email_only cSixWitnessExtract "https://x.com"
  refine ⟨h.1, ?_⟩
  have hm : ({ name := "Ann Ames", email := "ann@x.co" } : Contact)
      ∈ find_company_contacts cSixWitnessExtract "https://x.com" := by decide
  exact (h.2.2 _ hm).1

/-! ### C7 -/

/-- Claim C7: the lead score is exactly the capped specification sum
`min 100 s` (a pure function of the record, hence deterministic), and it
always lies in [0, 100]. -/
theorem claim_lead_score_formula (c : Contact) :
    calculate_lead_score c = min 100 (leadScoreSpecSum c)
    ∧ 0 ≤ calculate_lead_score c ∧ calculate_lead_score c ≤ 100 := by
  have heq : calculate_lead_score c = min (leadScoreSpecSum c) 100 := by
    simp [calculate_lead_score, leadScoreSpecSum, seniorityBonus]
  have h0 : 0 ≤ leadScoreSpecSum c := by
    unfold leadScoreSpecSum
    refine add_nonneg (add_nonneg (add_nonneg (add_nonneg (add_nonneg ?_ ?_) ?_) ?_) ?_) ?_ <;>
      (repeat' split) <;> norm_num
  refine ⟨by rw [heq, min_comm], by rw [heq]; exact le_min h0 (by norm_num),
    by rw [heq]; exact min_le_right _ _⟩

/-! ### C8 -/

theorem bulk_length (st : GenState) (contacts : List Contact) (domain : String)
    (mx : String → Bool) (smtp : String → SmtpRes) :
    ((bulk_email_generation st contacts domain mx smtp).1).length = contacts.length := by
  simp [bulk_email_generation]

theorem bulkContact_source (st : GenState) (mx : String → Bool) (smtp : String → SmtpRes)
    (domain : String) (c : Contact) :
    (bulkContact st mx smtp domain c).source = c.source := by
  unfold bulkContact
  split <;> rfl

theorem bulk_source_mem (st : GenState) (l : List Contact) (d : String)
    (mx : String → Bool) (smtp : String → SmtpRes) :
    ∀ r ∈ (bulk_email_generation st l d mx smtp).1, ∃ c ∈ l, r.source = c.source := by
  intro r hr
  simp only [bulk_email_generation] at hr
  rw [List.mem_map] at hr
  obtain ⟨c, hc, hfc⟩ := hr
  exact ⟨c, hc, by rw [← hfc, bulkContact_source]⟩

theorem generate_likely_contacts_facts (company : Company) (d : String)
    (choice : List String → String) :
    (generate_likely_contacts company d choice).length = 2
    ∧ ∀ c ∈ generate_likely_contacts company d choice, c.source = "Generated Pattern" := by
  refine ⟨rfl, ?_⟩
  intro c hc
  simp [generate_likely_contacts, commonRoles] at hc
  rcases hc with h | h <;> rw [h]

/-- Claim C8: for every company whose effective domain is non-empty, the
enriched contact list is non-empty; when contact extraction yields zero
contacts, the attached contacts are the synthesized placeholders, each
tagged with provenance "Generated Pattern". -/
theorem claim_enrich_nonempty_contacts (scrape : String → List Contact)
    (choice : List String → String) (mx : String → Bool) (smtp : String → SmtpRes)
    (st : GenState) (company : Company)
    (hdom : (enrich_company_with_contacts scrape choice mx smtp st company).company.domain
      ≠ "") :
    (enrich_company_with_contacts scrape choice mx smtp st company).contacts ≠ []
    ∧ (extractedContacts scrape company = [] →
        ∀ c ∈ (enrich_company_with_contacts scrape choice mx smtp st company).contacts,
          c.source = "Generated Pattern") := by
  have hdom2 : enrichDomain company ≠ "" := hdom
  by_cases h0 : extractedContacts scrape company = []
  · have hc : (enrich_company_with_contacts scrape choice mx smtp st company).contacts
        = (bulk_email_generation st
            (generate_likely_contacts company (enrichDomain company) choice)
            (enrichDomain company) mx smtp).1 := by
      simp [enrich_company_with_contacts, h0, hdom2]
    have hlen : ((bulk_email_generation st
        (generate_likely_contacts company (enrichDomain company) choice)
        (enrichDomain company) mx smtp).1).length = 2 := by
      rw [bulk_length]
      exact (generate_likely_contacts_facts _ _ _).1
    constructor
    · rw [hc]
      intro hnil
      rw [hnil] at hlen
      simp at hlen
    · intro _ c hcmem
      rw [hc] at hcmem
      obtain ⟨c0, hc0, hsrc⟩ := bulk_source_mem _ _ _ _ _ c hcmem
      rw [hsrc]
      exact (generate_likely_contacts_facts _ _ _).2 c0 hc0
  · have hc : (enrich_company_with_contacts scrape choice mx smtp st company).contacts
        = (bulk_email_generation st (extractedContacts scrape company)
            (enrichDomain company) mx smtp).1 := by
      simp [enrich_company_with_contacts, h0, hdom2]
    constructor
    · rw [hc]
      intro hnil
      have hlen := bulk_length st (extractedContacts scrape company)
        (enrichDomain company) mx smtp
      rw [hnil] at hlen
      exact h0 (List.length_eq_zero.mp hlen.symm)
    · intro hext
      exact absurd hext h0

/-- Witness for C8 at a concrete input: a company with domain acme.com and
no website gets two synthesized contacts, all tagged "Generated Pattern". -/
theorem claim_enrich_nonempty_contacts_witness :
    (enrich_company_with_contacts (fun _ => []) choiceHead mxNone smtpReject []
        cEightCompany).contacts ≠ []
    ∧ ∀ c ∈ (enrich_company_with_contacts (fun _ => []) choiceHead mxNone smtpReject []
        cEightCompany).contacts, c.source = "Generated Pattern" :=
  ⟨(claim_enrich_nonempty_contacts (fun _ => []) choiceHead mxNone smtpReject []
      cEightCompany (by decide)).1,
   (claim_enrich_nonempty_contacts (fun _ => []) choiceHead mxNone smtpReject []
      cEightCompany (by decide)).2 (by decide)⟩

/-! ### C9 -/

/-- Counterexample to claim C9: `bulk_email_generation` does not leave
every pre-existing field unchanged for a contact that already carries an
email — a non-empty `generated_emails` field from an earlier pass is
overwritten with the empty list. -/
theorem claim_bulk_passthrough_counterexample :
    ((bulk_email_generation [] [cNineContact] "acme.com" mxNone smtpReject).1.map
        (fun r => r.generated_emails)) = [[]]
    ∧ cNineContact.generated_emails ≠ [] := by
  constructor <;> decide

/-- Claim C9 as amended: for every input contact that already carries a
non-empty email, the corresponding output record equals the input with
only `generated_emails` reset to the empty list and `email_confidence` set
to 100; all other fields (including the email) are unchanged, and the
result does not depend on the MX or SMTP oracles (no synthesis or
verification runs for that contact). -/
theorem claim_bulk_passthrough_fields (st : GenState) (contacts : List Contact)
    (domain : String) (mx : String → Bool) (smtp : String → SmtpRes)
    (i : Nat) (c : Contact) (hc : contacts[i]? = some c) (he : c.email ≠ "") :
    (bulk_email_generation st contacts domain mx smtp).1[i]?
      = some { c with generated_emails := [], email_confidence := 100 } := by
  simp only [bulk_email_generation, List.getElem?_map, hc, Option.map_some']
  unfold bulkContact
  rw [if_pos he]

/-- Witness for C9 (amended) at a concrete input. -/
theorem claim_bulk_passthrough_fields_witness :
    (bulk_email_generation [] [cNineContact] "acme.com" mxAll smtpUnknown).1[0]?
      = some { cNineContact with generated_emails := [], email_confidence := 100 } :=
  claim_bulk_passthrough_fields [] [cNineContact] "acme.com" mxAll smtpUnknown 0
    cNineContact (by decide) (by decide)

/-! ### C10 -/

/-- Claim C10: `bulk_email_generation` returns exactly one output per
input, aligned by position (same first/last name at each index), and every
output carries an `email_confidence`: 100 when the contact arrived with an
email, otherwise the best generated candidate's confidence, or 0 when no
valid candidate was found. -/
theorem claim_bulk_length_order_confidence (st : GenState) (contacts : List Contact)
    (domain : String) (mx : String → Bool) (smtp : String → SmtpRes) :
    ((bulk_email_generation st contacts domain mx smtp).1).length = contacts.length
    ∧ ∀ (i : Nat) (c : Contact), contacts[i]? = some c →
        ∃ r, (bulk_email_generation st contacts domain mx smtp).1[i]? = some r
          ∧ r.first_name = c.first_name ∧ r.last_name = c.last_name
          ∧ r.email_confidence =
              (if c.email ≠ "" then (100 : Int)
               else (((generate_and_verify_emails
                        (bulk_email_generation st contacts domain mx smtp).2 mx smtp
                        c.first_name c.last_name domain 3).head?.map
                      (fun g => g.confidence)).getD 0)) := by
  refine ⟨by simp [bulk_email_generation], ?_⟩
  intro i c hc
  refine ⟨bulkContact ((bulk_email_generation st contacts domain mx smtp).2) mx smtp
    domain c, ?_, ?_, ?_, ?_⟩
  · simp only [bulk_email_generation, List.getElem?_map, hc, Option.map_some']
  · unfold bulkContact
    split <;> rfl
  · unfold bulkContact
    split <;> rfl
  · by_cases he : c.email ≠ ""
    · simp [bulkContact, he]
    · simp [bulkContact, he]

/-- Witness for C10 at a concrete input: a contact without an email gets
its best candidate's confidence. -/
theorem claim_bulk_length_order_confidence_witness :
    ∃ r, (bulk_email_generation [] [cTenContact] "acme.com" mxAll smtpUnknown).1[0]?
        = some r
      ∧ r.first_name = cTenContact.first_name ∧ r.last_name = cTenContact.last_name
      ∧ r.email_confidence =
          (if cTenContact.email ≠ "" then (100 : Int)
           else (((generate_and_verify_emails
                    (bulk_email_generation [] [cTenContact] "acme.com" mxAll
                      smtpUnknown).2 mxAll smtpUnknown cTenContact.first_name
                    cTenContact.last_name "acme.com" 3).head?.map
                  (fun g => g.confidence)).getD 0)) :=
  (claim_bulk_length_order_confidence [] [cTenContact] "acme.com" mxAll smtpUnknown).2
    0 cTenContact (by decide)
